import Mathlib

/-!
Shallow embedding of `Script_stoichiometry_from_dimer.py`.

The script estimates ring stoichiometry from a dimer model.  Its numeric
core is embedded here: the `rmsd` function (source lines 29-36), the
post-alignment part of `rmsd_list_from_dimer` (lines 52-60), the chain-A
delete loop (lines 46-47) as the list of copy indices it targets,
`min_rmsd` (lines 62-65) and `predict_stoichiometry` (lines 68-69).
Python runtime failures (IndexError, ZeroDivisionError, TypeError) are
modelled with `Except`.  The PyMOL load/copy/align/save steps are external
to the repository's code; the merged structure they produce enters the
model as data (per-atom chain indices and coordinates).
-/

/-- The Python runtime errors the script's numeric core can raise. -/
inductive PyErr : Type
  | indexError
  | zeroDivisionError
  | typeError
deriving DecidableEq

/-- The coordinate array of a loaded structure, `structure.xyz[0]`:
one (x, y, z) triple per atom index (in nanometers). -/
abbrev Structure := List (ℝ × ℝ × ℝ)

/-- Python sequence indexing `l[i]` for a nonnegative index: raises
IndexError when the index is out of range. -/
def pyIndex {α : Type} (l : List α) (i : ℕ) : Except PyErr α :=
  match l.get? i with
  | some x => Except.ok x
  | none => Except.error PyErr.indexError

/-- One iteration of the summation loop of `rmsd` (source lines 33-35):
adds to the accumulator the squared differences in x, y and z between
atom `chain_1[i]` and atom `chain_2[i]` of the structure. -/
def rmsdStep (chain_1 chain_2 : List ℕ) (s : Structure) (summ : ℝ) (i : ℕ) :
    Except PyErr ℝ :=
  match pyIndex chain_1 i with
  | Except.error e => Except.error e
  | Except.ok j1 =>
    match pyIndex s j1 with
    | Except.error e => Except.error e
    | Except.ok a1 =>
      match pyIndex chain_2 i with
      | Except.error e => Except.error e
      | Except.ok j2 =>
        match pyIndex s j2 with
        | Except.error e => Except.error e
        | Except.ok a2 =>
          Except.ok (summ + (a1.1 - a2.1) ^ 2 + (a1.2.1 - a2.2.1) ^ 2 +
            (a1.2.2 - a2.2.2) ^ 2)

/-- The `for i in range(0, N)` loop of `rmsd` (source lines 32-35), run over
the remaining indices with the current value of `summ`; the first failing
iteration propagates its error. -/
def loopSum (chain_1 chain_2 : List ℕ) (s : Structure) : List ℕ → ℝ → Except PyErr ℝ
  | [], summ => Except.ok summ
  | i :: rest, summ =>
    match rmsdStep chain_1 chain_2 s summ i with
    | Except.error e => Except.error e
    | Except.ok summ2 => loopSum chain_1 chain_2 s rest summ2

/-- `rmsd` (source lines 29-36): sums squared coordinate differences over
`i in range(0, len(chain_1))`, divides by `N = len(chain_1)` (ZeroDivisionError
when `N = 0`) and returns `sqrt(summ/N) * 10.0`. -/
noncomputable def rmsd (chain_1 chain_2 : List ℕ) (s : Structure) : Except PyErr ℝ :=
  match loopSum chain_1 chain_2 s (List.range chain_1.length) 0 with
  | Except.error e => Except.error e
  | Except.ok summ =>
    if chain_1.length = 0 then Except.error PyErr.zeroDivisionError
    else Except.ok (Real.sqrt (summ / chain_1.length) * 10)

/-- Specification-side term: the squared Euclidean difference in x, y and z
between atom `chain_1[i]` and atom `chain_2[i]` (all lookups in range). -/
noncomputable def specSqDiff (chain_1 chain_2 : List ℕ) (s : Structure) (i : ℕ) : ℝ :=
  ((s.getD (chain_1.getD i 0) (0, 0, 0)).1 - (s.getD (chain_2.getD i 0) (0, 0, 0)).1) ^ 2 +
  ((s.getD (chain_1.getD i 0) (0, 0, 0)).2.1 - (s.getD (chain_2.getD i 0) (0, 0, 0)).2.1) ^ 2 +
  ((s.getD (chain_1.getD i 0) (0, 0, 0)).2.2 - (s.getD (chain_2.getD i 0) (0, 0, 0)).2.2) ^ 2

/-- Specification-side predicate: the list has a strict local minimum at
index `i` (strictly below both neighbours). -/
def strictLocalMinAt (l : List ℝ) (i : ℕ) : Prop :=
  l.getD i 0 < l.getD (i - 1) 0 ∧ l.getD i 0 < l.getD (i + 1) 0

/-- The test of source line 64, `rmsd_list[i] < rmsd_list[i-1] and
rmsd_list[i] < rmsd_list[i+1]`, as the boolean the loop branches on. -/
noncomputable def localMinTest (rmsd_list : List ℝ) (i : ℕ) : Bool :=
  decide (rmsd_list.getD i 0 < rmsd_list.getD (i - 1) 0) &&
  decide (rmsd_list.getD i 0 < rmsd_list.getD (i + 1) 0)

/-- `min_rmsd` (source lines 62-65): scans `i in range(2, len(rmsd_list) - 1)`
in increasing order and returns the first index passing the strict
local-minimum test; falling off the loop returns Python's implicit None. -/
noncomputable def min_rmsd (rmsd_list : List ℝ) : Option ℕ :=
  (List.range' 2 (rmsd_list.length - 1 - 2)).find? (localMinTest rmsd_list)

/-- The copy indices targeted by the chain-A delete loop (source lines
46-47): `for i in range(0, list_len): cmd.delete('/c' + str(i + 1) + '//A')`. -/
def deletionTargets (list_len : ℕ) : List ℕ :=
  (List.range list_len).map (fun i => i + 1)

/-- Chain extraction from the merged structure's topology (source line 55):
`topo` records each atom's chain index in atom order, and chain `i` collects
the indices of the atoms whose chain index is `i`. -/
def chainAtoms (topo : List ℕ) (i : ℕ) : List ℕ :=
  (List.range topo.length).filter (fun a => topo.get? a == some i)

/-- The `rmsd_list.append(...)` loop shape (source lines 57-59): builds
`[f 0, ..., f (n-1)]` in order, the first failing call propagating its
error. -/
def buildList (f : ℕ → Except PyErr ℝ) : ℕ → Except PyErr (List ℝ)
  | 0 => Except.ok []
  | n + 1 =>
    match buildList f n with
    | Except.error e => Except.error e
    | Except.ok xs =>
      match f n with
      | Except.error e => Except.error e
      | Except.ok x => Except.ok (xs ++ [x])

/-- The geometric core of `rmsd_list_from_dimer` (source lines 52-60): the
merged structure written by the external PyMOL steps is given by its
per-atom chain indices `topo` and coordinates `s`; chains are partitioned
by index and `rmsd_list[i] = rmsd(chain_list[0], chain_list[2*i], struct)`
for `i in range(0, list_len)`. -/
noncomputable def rmsd_list_from_dimer_core (topo : List ℕ) (s : Structure)
    (list_len : ℕ) : Except PyErr (List ℝ) :=
  let chain_list := (List.range (2 * list_len)).map (chainAtoms topo)
  buildList (fun i => rmsd (chain_list.getD 0 []) (chain_list.getD (2 * i) []) s) list_len

/-- `predict_stoichiometry` (source lines 68-69) over the modelled core:
`min_rmsd(rmsd_list_from_dimer(...)) - 1`; when `min_rmsd` returns None,
the subtraction `None - 1` raises TypeError. -/
noncomputable def predict_stoichiometry (topo : List ℕ) (s : Structure)
    (max_expected_stoichiometry : ℕ) : Except PyErr ℤ :=
  match rmsd_list_from_dimer_core topo s max_expected_stoichiometry with
  | Except.error e => Except.error e
  | Except.ok rl =>
    match min_rmsd rl with
    | some i => Except.ok ((i : ℤ) - 1)
    | none => Except.error PyErr.typeError

/-! Generic facts about scanning a range with find? -/

theorem find?_range'_eq_some (p : ℕ → Bool) :
    ∀ n s i, ((List.range' s n).find? p = some i ↔
      s ≤ i ∧ i < s + n ∧ p i = true ∧ ∀ j, s ≤ j → j < i → p j = false) := by
  intro n
  induction n with
  | zero =>
    intro s i
    constructor
    · intro h
      simp [List.range'] at h
    · rintro ⟨h1, h2, -, -⟩
      omega
  | succ n ih =>
    intro s i
    rw [List.range'_succ]
    by_cases hp : p s = true
    · rw [List.find?_cons_of_pos _ hp]
      constructor
      · intro h
        have hi : s = i := Option.some.inj h
        subst hi
        exact ⟨le_refl _, by omega, hp, fun j h1 h2 => by omega⟩
      · rintro ⟨h1, h2, hpi, hall⟩
        have hi : i = s := by
          by_contra hne
          have hsi : s < i := lt_of_le_of_ne h1 (Ne.symm hne)
          have := hall s (le_refl _) hsi
          rw [hp] at this
          exact Bool.true_eq_false.mp this
        subst hi
        rfl
    · have hps : p s = false := by
        revert hp
        cases p s <;> simp
      rw [List.find?_cons_of_neg _ hp, ih (s + 1) i]
      constructor
      · rintro ⟨h1, h2, h3, h4⟩
        refine ⟨by omega, by omega, h3, fun j hj1 hj2 => ?_⟩
        rcases Nat.eq_or_lt_of_le hj1 with hj | hj
        · rw [← hj]
          exact hps
        · exact h4 j hj hj2
      · rintro ⟨h1, h2, h3, h4⟩
        have hne : i ≠ s := by
          intro hi
          rw [hi, hps] at h3
          exact Bool.false_ne_true h3
        exact ⟨by omega, by omega, h3, fun j hj1 hj2 => h4 j (by omega) hj2⟩

theorem find?_range'_eq_none (p : ℕ → Bool) :
    ∀ n s, ((List.range' s n).find? p = none ↔
      ∀ j, s ≤ j → j < s + n → p j = false) := by
  intro n
  induction n with
  | zero =>
    intro s
    constructor
    · intro _ j h1 h2
      omega
    · intro _
      simp [List.range']
  | succ n ih =>
    intro s
    rw [List.range'_succ]
    by_cases hp : p s = true
    · rw [List.find?_cons_of_pos _ hp]
      constructor
      · intro h
        exact absurd h (by simp)
      · intro hall
        have := hall s (le_refl _) (by omega)
        rw [hp] at this
        exact absurd this (by simp)
    · have hps : p s = false := by
        revert hp
        cases p s <;> simp
      rw [List.find?_cons_of_neg _ hp, ih (s + 1)]
      constructor
      · intro h j hj1 hj2
        rcases Nat.eq_or_lt_of_le hj1 with hj | hj
        · rw [← hj]
          exact hps
        · exact h j hj (by omega)
      · intro h j hj1 hj2
        exact h j (by omega) (by omega)

/-! Facts about the minimum finder -/

theorem localMinTest_eq_true (l : List ℝ) (i : ℕ) :
    localMinTest l i = true ↔ strictLocalMinAt l i := by
  simp [localMinTest, strictLocalMinAt, Bool.and_eq_true, decide_eq_true_eq]

theorem localMinTest_eq_false (l : List ℝ) (i : ℕ) :
    localMinTest l i = false ↔ ¬ strictLocalMinAt l i := by
  rw [← localMinTest_eq_true]
  cases localMinTest l i <;> simp

theorem min_rmsd_eq_some_iff (l : List ℝ) (i : ℕ) :
    min_rmsd l = some i ↔
      2 ≤ i ∧ i + 2 ≤ l.length ∧ strictLocalMinAt l i ∧
        ∀ j, 2 ≤ j → j < i → ¬ strictLocalMinAt l j := by
  rw [min_rmsd, find?_range'_eq_some]
  constructor
  · rintro ⟨h1, h2, h3, h4⟩
    exact ⟨h1, by omega, (localMinTest_eq_true l i).mp h3,
      fun j hj1 hj2 => (localMinTest_eq_false l j).mp (h4 j hj1 hj2)⟩
  · rintro ⟨h1, h2, h3, h4⟩
    exact ⟨h1, by omega, (localMinTest_eq_true l i).mpr h3,
      fun j hj1 hj2 => (localMinTest_eq_false l j).mpr (h4 j hj1 hj2)⟩

theorem min_rmsd_eq_none_iff (l : List ℝ) :
    min_rmsd l = none ↔
      ∀ i, 2 ≤ i → i + 2 ≤ l.length → ¬ strictLocalMinAt l i := by
  rw [min_rmsd, find?_range'_eq_none]
  constructor
  · intro h i h1 h2
    exact (localMinTest_eq_false l i).mp (h i h1 (by omega))
  · intro h i h1 h2
    exact (localMinTest_eq_false l i).mpr (h i h1 (by omega))

/-! Facts about the RMSD calculator -/

theorem pyIndex_ok_or_indexError {α : Type} (l : List α) (i : ℕ) :
    (∃ x, pyIndex l i = Except.ok x) ∨ pyIndex l i = Except.error PyErr.indexError := by
  unfold pyIndex
  cases l.get? i with
  | none => exact Or.inr rfl
  | some x => exact Or.inl ⟨x, rfl⟩

theorem pyIndex_ok_of_lt {α : Type} (l : List α) (d : α) (i : ℕ) (h : i < l.length) :
    pyIndex l i = Except.ok (l.getD i d) := by
  unfold pyIndex
  rw [List.getD_eq_get?]
  cases hg : l.get? i with
  | none =>
    rw [List.get?_eq_none] at hg
    omega
  | some x => rfl

theorem pyIndex_indexError_of_le {α : Type} (l : List α) (i : ℕ) (h : l.length ≤ i) :
    pyIndex l i = Except.error PyErr.indexError := by
  unfold pyIndex
  rw [List.get?_eq_none.mpr h]

theorem getD_mem_of_lt {α : Type} (l : List α) (d : α) (i : ℕ) (h : i < l.length) :
    l.getD i d ∈ l := by
  rw [List.getD_eq_get?]
  cases hg : l.get? i with
  | none =>
    rw [List.get?_eq_none] at hg
    omega
  | some x => exact List.get?_mem hg

theorem rmsdStep_ok (c1 c2 : List ℕ) (s : Structure) (i : ℕ)
    (h1 : i < c1.length) (h2 : i < c2.length)
    (hv1 : c1.getD i 0 < s.length) (hv2 : c2.getD i 0 < s.length) (a : ℝ) :
    rmsdStep c1 c2 s a i = Except.ok (a + specSqDiff c1 c2 s i) := by
  simp only [rmsdStep, pyIndex_ok_of_lt c1 0 i h1, pyIndex_ok_of_lt c2 0 i h2,
    pyIndex_ok_of_lt s (0, 0, 0) _ hv1, pyIndex_ok_of_lt s (0, 0, 0) _ hv2, specSqDiff]
  ring_nf

theorem rmsdStep_ok_or_indexError (c1 c2 : List ℕ) (s : Structure) (a : ℝ) (i : ℕ) :
    (∃ b, rmsdStep c1 c2 s a i = Except.ok b) ∨
      rmsdStep c1 c2 s a i = Except.error PyErr.indexError := by
  unfold rmsdStep
  rcases pyIndex_ok_or_indexError c1 i with ⟨j1, hj1⟩ | hj1 <;> simp only [hj1]
  · rcases pyIndex_ok_or_indexError s j1 with ⟨a1, ha1⟩ | ha1 <;> simp only [ha1]
    · rcases pyIndex_ok_or_indexError c2 i with ⟨j2, hj2⟩ | hj2 <;> simp only [hj2]
      · rcases pyIndex_ok_or_indexError s j2 with ⟨a2, ha2⟩ | ha2 <;> simp only [ha2]
        · exact Or.inl ⟨_, rfl⟩
        · exact Or.inr trivial
      · exact Or.inr trivial
    · exact Or.inr trivial
  · exact Or.inr trivial

theorem rmsdStep_indexError_of_len_le (c1 c2 : List ℕ) (s : Structure) (i : ℕ)
    (h2 : c2.length ≤ i) (a : ℝ) :
    rmsdStep c1 c2 s a i = Except.error PyErr.indexError := by
  unfold rmsdStep
  rcases pyIndex_ok_or_indexError c1 i with ⟨j1, hj1⟩ | hj1 <;> simp only [hj1]
  · rcases pyIndex_ok_or_indexError s j1 with ⟨a1, ha1⟩ | ha1 <;> simp only [ha1]
    · simp only [pyIndex_indexError_of_le c2 i h2]

theorem loopSum_ok_of_steps (c1 c2 : List ℕ) (s : Structure) (t : ℕ → ℝ) :
    ∀ (L : List ℕ), (∀ a i, i ∈ L → rmsdStep c1 c2 s a i = Except.ok (a + t i)) →
      ∀ a, loopSum c1 c2 s L a = Except.ok (a + (L.map t).sum) := by
  intro L
  induction L with
  | nil =>
    intro _ a
    simp [loopSum]
  | cons i rest ih =>
    intro h a
    have hstep := h a i (List.mem_cons_self i rest)
    simp only [loopSum, hstep]
    rw [ih (fun b j hj => h b j (List.mem_cons_of_mem i hj)) (a + t i)]
    simp only [List.map_cons, List.sum_cons]
    congr 1
    ring

theorem loopSum_indexError (c1 c2 : List ℕ) (s : Structure) :
    ∀ (L : List ℕ),
      (∃ i ∈ L, ∀ a, rmsdStep c1 c2 s a i = Except.error PyErr.indexError) →
      ∀ a, loopSum c1 c2 s L a = Except.error PyErr.indexError := by
  intro L
  induction L with
  | nil =>
    rintro ⟨i, hi, -⟩
    exact absurd hi (List.not_mem_nil i)
  | cons i rest ih =>
    rintro ⟨i0, hi0, hbad⟩ a
    rcases rmsdStep_ok_or_indexError c1 c2 s a i with ⟨b, hb⟩ | hb
    · simp only [loopSum, hb]
      apply ih
      refine ⟨i0, ?_, hbad⟩
      rcases List.mem_cons.mp hi0 with h | h
      · subst h
        rw [hbad a] at hb
        exact absurd hb (by simp)
      · exact h
    · simp only [loopSum, hb]

theorem loopSum_congr_chain2 (c1 c2 c2' : List ℕ) (s : Structure) :
    ∀ (L : List ℕ), (∀ i ∈ L, pyIndex c2 i = pyIndex c2' i) →
      ∀ a, loopSum c1 c2 s L a = loopSum c1 c2' s L a := by
  intro L
  induction L with
  | nil =>
    intro _ a
    rfl
  | cons i rest ih =>
    intro h a
    have hstep : rmsdStep c1 c2 s a i = rmsdStep c1 c2' s a i := by
      unfold rmsdStep
      rw [h i (List.mem_cons_self i rest)]
    simp only [loopSum, hstep]
    cases rmsdStep c1 c2' s a i with
    | error e => rfl
    | ok b => exact ih (fun j hj => h j (List.mem_cons_of_mem i hj)) b

theorem rmsd_ok_formula (c1 c2 : List ℕ) (s : Structure)
    (hlen : c1.length = c2.length) (hpos : 0 < c1.length)
    (hv1 : ∀ j ∈ c1, j < s.length) (hv2 : ∀ j ∈ c2, j < s.length) :
    rmsd c1 c2 s = Except.ok
      (Real.sqrt ((((List.range c1.length).map (specSqDiff c1 c2 s)).sum) / c1.length) *
        10) := by
  have hloop : loopSum c1 c2 s (List.range c1.length) 0 =
      Except.ok (0 + (((List.range c1.length).map (specSqDiff c1 c2 s))).sum) := by
    apply loopSum_ok_of_steps
    intro a i hi
    have hi1 : i < c1.length := List.mem_range.mp hi
    have hi2 : i < c2.length := hlen ▸ hi1
    exact rmsdStep_ok c1 c2 s i hi1 hi2 (hv1 _ (getD_mem_of_lt c1 0 i hi1))
      (hv2 _ (getD_mem_of_lt c2 0 i hi2)) a
  simp only [rmsd, hloop]
  rw [if_neg (by omega), zero_add]

/-- Claim C3: for a structure and equal-length index sequences of length
N > 0 whose entries are valid atom indices, `rmsd` returns the square root
of the mean over i of the squared differences in x, y and z between atom
`chain_1[i]` and atom `chain_2[i]`, multiplied by 10. -/
theorem rmsd_matches_mean_square_formula (chain_1 chain_2 : List ℕ) (s : Structure)
    (hlen : chain_1.length = chain_2.length) (hpos : 0 < chain_1.length)
    (hv1 : ∀ j ∈ chain_1, j < s.length) (hv2 : ∀ j ∈ chain_2, j < s.length) :
    rmsd chain_1 chain_2 s = Except.ok
      (Real.sqrt ((((List.range chain_1.length).map (specSqDiff chain_1 chain_2 s)).sum) /
        chain_1.length) * 10) :=
  rmsd_ok_formula chain_1 chain_2 s hlen hpos hv1 hv2

/-- Witness for C3: chains [0] and [1] over a two-atom structure. -/
theorem rmsd_matches_mean_square_formula_witness :
    rmsd [0] [1] [((0:ℝ), (0:ℝ), (0:ℝ)), ((1:ℝ), (0:ℝ), (0:ℝ))] = Except.ok
      (Real.sqrt ((((List.range (List.length ([0] : List ℕ))).map
        (specSqDiff [0] [1] [((0:ℝ), (0:ℝ), (0:ℝ)), ((1:ℝ), (0:ℝ), (0:ℝ))])).sum) /
        (List.length ([0] : List ℕ))) * 10) :=
  rmsd_matches_mean_square_formula [0] [1]
    [((0:ℝ), (0:ℝ), (0:ℝ)), ((1:ℝ), (0:ℝ), (0:ℝ))]
    (by decide) (by decide) (by decide) (by decide)

/-- Claim C8: `rmsd` is symmetric in its two chain arguments. -/
theorem rmsd_symmetric (chain_1 chain_2 : List ℕ) (s : Structure)
    (hlen : chain_1.length = chain_2.length)
    (hv1 : ∀ j ∈ chain_1, j < s.length) (hv2 : ∀ j ∈ chain_2, j < s.length) :
    rmsd chain_1 chain_2 s = rmsd chain_2 chain_1 s := by
  rcases Nat.eq_zero_or_pos chain_1.length with h0 | hpos
  · have e1 : chain_1 = [] := List.length_eq_zero.mp h0
    have e2 : chain_2 = [] := List.length_eq_zero.mp (by omega)
    rw [e1, e2]
  · rw [rmsd_ok_formula chain_1 chain_2 s hlen hpos hv1 hv2,
      rmsd_ok_formula chain_2 chain_1 s hlen.symm (hlen ▸ hpos) hv2 hv1, ← hlen]
    have hmap : (List.range chain_1.length).map (specSqDiff chain_2 chain_1 s) =
        (List.range chain_1.length).map (specSqDiff chain_1 chain_2 s) := by
      apply List.map_congr_left
      intro i _
      unfold specSqDiff
      ring
    rw [hmap]

/-- Witness for C8: chains [0] and [1] over a two-atom structure. -/
theorem rmsd_symmetric_witness :
    rmsd [0] [1] [((0:ℝ), (0:ℝ), (0:ℝ)), ((1:ℝ), (0:ℝ), (0:ℝ))] =
      rmsd [1] [0] [((0:ℝ), (0:ℝ), (0:ℝ)), ((1:ℝ), (0:ℝ), (0:ℝ))] :=
  rmsd_symmetric [0] [1] [((0:ℝ), (0:ℝ), (0:ℝ)), ((1:ℝ), (0:ℝ), (0:ℝ))]
    (by decide) (by decide) (by decide)

/-- Counterexample to claim C4 as stated: chain_1 = [0] and chain_2 = [1, 2]
have unequal lengths, yet `rmsd` silently returns a value (10, computed from
chain_1 and only the first entry of chain_2) instead of raising an error. -/
theorem rmsd_unequal_silent_value :
    List.length ([0] : List ℕ) ≠ List.length ([1, 2] : List ℕ) ∧
    rmsd [0] [1, 2]
      [((0:ℝ), (0:ℝ), (0:ℝ)), ((1:ℝ), (0:ℝ), (0:ℝ)), ((2:ℝ), (0:ℝ), (0:ℝ))] =
      Except.ok 10 := by
  refine ⟨by decide, ?_⟩
  have hstep : rmsdStep [0] [1, 2]
      [((0:ℝ), (0:ℝ), (0:ℝ)), ((1:ℝ), (0:ℝ), (0:ℝ)), ((2:ℝ), (0:ℝ), (0:ℝ))] 0 0 =
      Except.ok (0 + specSqDiff [0] [1, 2]
        [((0:ℝ), (0:ℝ), (0:ℝ)), ((1:ℝ), (0:ℝ), (0:ℝ)), ((2:ℝ), (0:ℝ), (0:ℝ))] 0) :=
    rmsdStep_ok _ _ _ 0 (by decide) (by decide) (by decide) (by decide) 0
  have hspec : specSqDiff [0] [1, 2]
      [((0:ℝ), (0:ℝ), (0:ℝ)), ((1:ℝ), (0:ℝ), (0:ℝ)), ((2:ℝ), (0:ℝ), (0:ℝ))] 0 = 1 := by
    have e : specSqDiff [0] [1, 2]
        [((0:ℝ), (0:ℝ), (0:ℝ)), ((1:ℝ), (0:ℝ), (0:ℝ)), ((2:ℝ), (0:ℝ), (0:ℝ))] 0 =
        ((0:ℝ) - 1) ^ 2 + ((0:ℝ) - 0) ^ 2 + ((0:ℝ) - 0) ^ 2 := rfl
    rw [e]
    norm_num
  have hrange : List.range (List.length ([0] : List ℕ)) = [0] := rfl
  simp only [rmsd, hrange, loopSum, hstep, hspec]
  rw [if_neg (by decide)]
  norm_num [Real.sqrt_one]

/-- Claim C4 (amended): on unequal-length chains `rmsd` raises IndexError
only when chain_1 is the longer one; when chain_1 is not longer it behaves
as if chain_2 were truncated to the first len(chain_1) entries, silently
returning a value computed from only that part of the longer chain. -/
theorem rmsd_length_mismatch_behavior (chain_1 chain_2 : List ℕ) (s : Structure) :
    (chain_2.length < chain_1.length →
      rmsd chain_1 chain_2 s = Except.error PyErr.indexError) ∧
    (chain_1.length ≤ chain_2.length →
      rmsd chain_1 chain_2 s = rmsd chain_1 (chain_2.take chain_1.length) s) := by
  constructor
  · intro h
    have hloop : loopSum chain_1 chain_2 s (List.range chain_1.length) 0 =
        Except.error PyErr.indexError := by
      apply loopSum_indexError
      exact ⟨chain_2.length, List.mem_range.mpr h,
        rmsdStep_indexError_of_len_le chain_1 chain_2 s chain_2.length (le_refl _)⟩
    simp only [rmsd, hloop]
  · intro h
    have hloop : ∀ a, loopSum chain_1 chain_2 s (List.range chain_1.length) a =
        loopSum chain_1 (chain_2.take chain_1.length) s (List.range chain_1.length) a := by
      apply loopSum_congr_chain2
      intro i hi
      have hi1 : i < chain_1.length := List.mem_range.mp hi
      unfold pyIndex
      rw [List.get?_take hi1]
    simp only [rmsd, hloop 0]

/-- Claim C10: calling `rmsd` with an empty chain_1 always fails with
ZeroDivisionError; it never returns a number. -/
theorem rmsd_empty_chain_zero_div (chain_2 : List ℕ) (s : Structure) :
    rmsd [] chain_2 s = Except.error PyErr.zeroDivisionError := rfl

/-- Claim C1: `min_rmsd` scans indices from 2 to len - 2 inclusive in
increasing order and returns the first index that is a strict local minimum;
in particular it returns 3 on [5, 4, 3, 2, 3, 4, 5]. -/
theorem min_rmsd_first_strict_local_min :
    (∀ (l : List ℝ) (i : ℕ), min_rmsd l = some i ↔
      2 ≤ i ∧ i + 2 ≤ l.length ∧ strictLocalMinAt l i ∧
        ∀ j, 2 ≤ j → j < i → ¬ strictLocalMinAt l j) ∧
    min_rmsd [5, 4, 3, 2, 3, 4, 5] = some 3 := by
  refine ⟨min_rmsd_eq_some_iff, ?_⟩
  rw [min_rmsd_eq_some_iff]
  refine ⟨by norm_num, by decide, ?_, ?_⟩
  · exact (show ((2:ℝ) < 3 ∧ (2:ℝ) < 3) by norm_num)
  · intro j hj1 hj2
    have hj : j = 2 := by omega
    subst hj
    rintro ⟨-, hb⟩
    have hb2 : (3 : ℝ) < 2 := hb
    norm_num at hb2

/-- Claim C5: `min_rmsd` returns none exactly when no index of the scanned
range is a strict local minimum; in particular it returns none on the
monotonically decreasing [5, 4, 3, 2, 1], with no crash or garbage index. -/
theorem min_rmsd_no_minimum_none :
    (∀ l : List ℝ, min_rmsd l = none ↔
      ∀ i, 2 ≤ i → i + 2 ≤ l.length → ¬ strictLocalMinAt l i) ∧
    min_rmsd [5, 4, 3, 2, 1] = none := by
  refine ⟨min_rmsd_eq_none_iff, ?_⟩
  rw [min_rmsd_eq_none_iff]
  intro i h1 h2
  have hlen : List.length ([5, 4, 3, 2, 1] : List ℝ) = 5 := rfl
  rw [hlen] at h2
  have : i = 2 ∨ i = 3 := by omega
  rcases this with hi | hi <;> subst hi
  · rintro ⟨-, hb⟩
    have hb2 : (3 : ℝ) < 2 := hb
    norm_num at hb2
  · rintro ⟨-, hb⟩
    have hb2 : (2 : ℝ) < 1 := hb
    norm_num at hb2

/-- Counterexample to claim C6 as stated: with list_len = 1 the delete loop
should issue no deletion (there is no copy other than copy 0), yet it issues
one, targeting copy index 1, which lies outside 0..list_len-1 = 0..0. -/
theorem deletion_loop_counterexample :
    deletionTargets 1 = [1] ∧ ¬ (∀ t ∈ deletionTargets 1, t ≤ 1 - 1) := by decide

/-- Claim C6 (amended): the delete loop issues chain-A deletions for exactly
the copies with indices 1 through list_len, in that order: copy 0's chain A
is retained, but the last deletion targets copy index list_len, outside
0..list_len-1 (a nonexistent copy, so that deletion is a no-op). -/
theorem deletion_loop_targets (list_len : ℕ) :
    deletionTargets list_len = List.range' 1 list_len ∧
    0 ∉ deletionTargets list_len := by
  constructor
  · rw [deletionTargets, List.range'_eq_map_range]
    apply List.map_congr_left
    intro i _
    exact Nat.add_comm i 1
  · intro h
    rcases List.mem_map.mp h with ⟨i, -, hi⟩
    omega

/-! Facts about the rmsd-list builder and the predictor -/

theorem buildList_succ (f : ℕ → Except PyErr ℝ) (n : ℕ) (xs : List ℝ) (x : ℝ)
    (h1 : buildList f n = Except.ok xs) (h2 : f n = Except.ok x) :
    buildList f (n + 1) = Except.ok (xs ++ [x]) := by
  unfold buildList
  rw [h1, h2]

theorem buildList_one (f : ℕ → Except PyErr ℝ) (v : ℝ) (h : f 0 = Except.ok v) :
    buildList f 1 = Except.ok [v] :=
  buildList_succ f 0 [] v rfl h

theorem buildList_ok (f : ℕ → Except PyErr ℝ) :
    ∀ (n : ℕ) (out : List ℝ), buildList f n = Except.ok out →
      out.length = n ∧ ∀ i, i < n → ∃ v, f i = Except.ok v ∧ out.get? i = some v := by
  intro n
  induction n with
  | zero =>
    intro out h
    have hout : ([] : List ℝ) = out := Except.ok.inj h
    rw [← hout]
    exact ⟨rfl, fun i hi => absurd hi (by omega)⟩
  | succ n ih =>
    intro out h
    unfold buildList at h
    cases hb : buildList f n with
    | error e =>
      rw [hb] at h
      exact absurd h (by simp)
    | ok xs =>
      rw [hb] at h
      cases hf : f n with
      | error e =>
        rw [hf] at h
        exact absurd h (by simp)
      | ok x =>
        rw [hf] at h
        have hout : xs ++ [x] = out := Except.ok.inj h
        obtain ⟨hlen, hall⟩ := ih xs hb
        rw [← hout]
        constructor
        · simp [hlen]
        · intro i hi
          rcases Nat.lt_or_ge i n with hlt | hge
          · obtain ⟨v, hv1, hv2⟩ := hall i hlt
            exact ⟨v, hv1, by rw [List.get?_append (by omega)]; exact hv2⟩
          · have hi' : i = n := by omega
            subst hi'
            refine ⟨x, hf, ?_⟩
            rw [List.get?_append_right (by omega)]
            simp [hlen]

theorem rmsdStep_self_ok (c : List ℕ) (s : Structure) (a : ℝ) (i : ℕ) (b : ℝ)
    (h : rmsdStep c c s a i = Except.ok b) : b = a := by
  unfold rmsdStep at h
  rcases pyIndex_ok_or_indexError c i with ⟨j1, hj1⟩ | hj1 <;> simp only [hj1] at h
  · rcases pyIndex_ok_or_indexError s j1 with ⟨a1, ha1⟩ | ha1 <;> simp only [ha1] at h
    · have hb : a + (a1.1 - a1.1) ^ 2 + (a1.2.1 - a1.2.1) ^ 2 + (a1.2.2 - a1.2.2) ^ 2 = b :=
        Except.ok.inj h
      rw [← hb]
      ring
    · exact absurd h (by simp)
  · exact absurd h (by simp)

theorem loopSum_self (c : List ℕ) (s : Structure) :
    ∀ (L : List ℕ) (a out : ℝ), loopSum c c s L a = Except.ok out → out = a := by
  intro L
  induction L with
  | nil =>
    intro a out h
    simp only [loopSum] at h
    exact (Except.ok.inj h).symm
  | cons i rest ih =>
    intro a out h
    simp only [loopSum] at h
    cases hs : rmsdStep c c s a i with
    | error e =>
      rw [hs] at h
      exact absurd h (by simp)
    | ok b =>
      rw [hs] at h
      rw [ih b out h, rmsdStep_self_ok c s a i b hs]

theorem rmsd_self_zero (c : List ℕ) (s : Structure) (v : ℝ)
    (h : rmsd c c s = Except.ok v) : v = 0 := by
  unfold rmsd at h
  cases hl : loopSum c c s (List.range c.length) 0 with
  | error e =>
    rw [hl] at h
    exact absurd h (by simp)
  | ok summ =>
    simp only [hl] at h
    have hsum : summ = 0 := loopSum_self c s _ 0 summ hl
    by_cases h0 : c.length = 0
    · rw [if_pos h0] at h
      exact absurd h (by simp)
    · rw [if_neg h0] at h
      have hv : Real.sqrt (summ / c.length) * 10 = v := Except.ok.inj h
      rw [← hv, hsum, zero_div, Real.sqrt_zero, zero_mul]

theorem rmsd_single (j k : ℕ) (s : Structure) (hj : j < s.length) (hk : k < s.length)
    (v : ℝ) (hv : specSqDiff [j] [k] s 0 = v) :
    rmsd [j] [k] s = Except.ok (Real.sqrt v * 10) := by
  have hstep : rmsdStep [j] [k] s 0 0 = Except.ok (0 + specSqDiff [j] [k] s 0) :=
    rmsdStep_ok [j] [k] s 0 (by simp) (by simp) hj hk 0
  have hrange : List.range (List.length ([j] : List ℕ)) = [0] := rfl
  simp only [rmsd, hrange, loopSum, hstep, hv]
  rw [if_neg (by simp)]
  simp only [List.length_singleton, Nat.cast_one, zero_add, div_one]

theorem rmsd_self_single_eval :
    rmsd [0] [0] [((0:ℝ), (0:ℝ), (0:ℝ)), ((1:ℝ), (0:ℝ), (0:ℝ))] = Except.ok 0 := by
  have hspec : specSqDiff [0] [0] [((0:ℝ), (0:ℝ), (0:ℝ)), ((1:ℝ), (0:ℝ), (0:ℝ))] 0 = 0 := by
    have e : specSqDiff [0] [0] [((0:ℝ), (0:ℝ), (0:ℝ)), ((1:ℝ), (0:ℝ), (0:ℝ))] 0 =
        ((0:ℝ) - 0) ^ 2 + ((0:ℝ) - 0) ^ 2 + ((0:ℝ) - 0) ^ 2 := rfl
    rw [e]
    norm_num
  rw [rmsd_single 0 0 _ (by decide) (by decide) 0 hspec, Real.sqrt_zero, zero_mul]

theorem core_single_eval :
    rmsd_list_from_dimer_core [0, 1]
      [((0:ℝ), (0:ℝ), (0:ℝ)), ((1:ℝ), (0:ℝ), (0:ℝ))] 1 = Except.ok [0] := by
  simp only [rmsd_list_from_dimer_core]
  apply buildList_one
  show rmsd (((List.range (2 * 1)).map (chainAtoms [0, 1])).getD 0 [])
      (((List.range (2 * 1)).map (chainAtoms [0, 1])).getD (2 * 0) [])
      [((0:ℝ), (0:ℝ), (0:ℝ)), ((1:ℝ), (0:ℝ), (0:ℝ))] = Except.ok 0
  have hg0 : ((List.range (2 * 1)).map (chainAtoms [0, 1])).getD 0 [] = [0] := by decide
  rw [hg0]
  exact rmsd_self_single_eval

/-- Claim C2: `predict_stoichiometry` returns `min_rmsd(rmsd_list) - 1` when
the minimum finder finds a strict local minimum and fails (TypeError from
`None - 1`) when it finds none. -/
theorem predict_stoichiometry_spec (topo : List ℕ) (s : Structure)
    (max_expected_stoichiometry : ℕ) (rl : List ℝ)
    (h : rmsd_list_from_dimer_core topo s max_expected_stoichiometry = Except.ok rl) :
    (∀ i, min_rmsd rl = some i →
      predict_stoichiometry topo s max_expected_stoichiometry = Except.ok ((i : ℤ) - 1)) ∧
    (min_rmsd rl = none →
      predict_stoichiometry topo s max_expected_stoichiometry =
        Except.error PyErr.typeError) := by
  constructor
  · intro i hi
    simp only [predict_stoichiometry, h, hi]
  · intro hn
    simp only [predict_stoichiometry, h, hn]

/-- Witness for C2 at a one-copy structure whose rmsd list is [0]. -/
theorem predict_stoichiometry_spec_witness :
    (∀ i, min_rmsd [(0:ℝ)] = some i →
      predict_stoichiometry [0, 1] [((0:ℝ), (0:ℝ), (0:ℝ)), ((1:ℝ), (0:ℝ), (0:ℝ))] 1 =
        Except.ok ((i : ℤ) - 1)) ∧
    (min_rmsd [(0:ℝ)] = none →
      predict_stoichiometry [0, 1] [((0:ℝ), (0:ℝ), (0:ℝ)), ((1:ℝ), (0:ℝ), (0:ℝ))] 1 =
        Except.error PyErr.typeError) :=
  predict_stoichiometry_spec [0, 1] [((0:ℝ), (0:ℝ), (0:ℝ)), ((1:ℝ), (0:ℝ), (0:ℝ))] 1
    [0] core_single_eval

/-- Claim C7: on a normal return the rmsd-list builder returns exactly
list_len values, and the value at index 0 (the reference protomer compared
with itself) is 0. -/
theorem rmsd_list_length_and_first_zero (topo : List ℕ) (s : Structure)
    (list_len : ℕ) (rl : List ℝ)
    (h : rmsd_list_from_dimer_core topo s list_len = Except.ok rl) :
    rl.length = list_len ∧ ∀ x, rl.get? 0 = some x → x = 0 := by
  simp only [rmsd_list_from_dimer_core] at h
  obtain ⟨hlen, hall⟩ := buildList_ok _ list_len rl h
  refine ⟨hlen, ?_⟩
  intro x hx
  have h0lt : 0 < rl.length := by
    rcases List.get?_eq_some.mp hx with ⟨hlt, -⟩
    exact hlt
  obtain ⟨v, hv1, hv2⟩ := hall 0 (by omega)
  rw [hx] at hv2
  have hvx : x = v := Option.some.inj hv2
  rw [hvx]
  exact rmsd_self_zero _ s v hv1

/-- Witness for C7 at a one-copy structure whose rmsd list is [0]. -/
theorem rmsd_list_length_and_first_zero_witness :
    List.length [(0:ℝ)] = 1 ∧ ∀ x, ([(0:ℝ)] : List ℝ).get? 0 = some x → x = 0 :=
  rmsd_list_length_and_first_zero [0, 1]
    [((0:ℝ), (0:ℝ), (0:ℝ)), ((1:ℝ), (0:ℝ), (0:ℝ))] 1 [0] core_single_eval

/-- Claim C9: any index `min_rmsd` returns lies in [2, len - 2]; any list of
length at most 3 yields none, even one with a strict local minimum at index
1; and whenever `predict_stoichiometry` returns normally its result is at
least 1. -/
theorem min_rmsd_range_and_predict_lower_bound :
    (∀ (l : List ℝ) (i : ℕ), min_rmsd l = some i → 2 ≤ i ∧ i + 2 ≤ l.length) ∧
    (∀ l : List ℝ, l.length ≤ 3 → min_rmsd l = none) ∧
    (∀ (topo : List ℕ) (s : Structure) (m : ℕ) (n : ℤ),
      predict_stoichiometry topo s m = Except.ok n → 1 ≤ n) := by
  refine ⟨?_, ?_, ?_⟩
  · intro l i h
    obtain ⟨h1, h2, -, -⟩ := (min_rmsd_eq_some_iff l i).mp h
    exact ⟨h1, h2⟩
  · intro l hl
    rw [min_rmsd_eq_none_iff]
    intro i h1 h2 _
    omega
  · intro topo s m n h
    unfold predict_stoichiometry at h
    cases hc : rmsd_list_from_dimer_core topo s m with
    | error e =>
      simp only [hc] at h
      exact absurd h (by simp)
    | ok rl =>
      simp only [hc] at h
      cases hm : min_rmsd rl with
      | none =>
        simp only [hm] at h
        exact absurd h (by simp)
      | some i =>
        simp only [hm] at h
        have hn : ((i : ℤ) - 1) = n := Except.ok.inj h
        obtain ⟨h2, -, -, -⟩ := (min_rmsd_eq_some_iff rl i).mp hm
        omega
